import Mathlib

/-!
Shallow embedding of the coastal-engineering wave core
(src/src/waves/{parameters,dispersion,velocity,boundary}.rs).

Rust f64 arithmetic is modelled over the real numbers; each Err site of
the source is mapped to one constructor of the WaveError type; fallible
functions return Except WaveError.
-/

open Real

/-- Error taxonomy: one constructor per Err site of the source. -/
inductive WaveError
  | invalidHeight
  | invalidPeriod
  | invalidDepth
  | breakingRisk
  | kNonpositive
  | omegaNonpositive
  | cNonpositive
  | inconsistent
  | derivativeUnderflow
  | noConvergence
  | residualTooLarge
  | energyDrift
  deriving DecidableEq

/-- An invalid-input failure of the spec groups the three positivity
failures of the constructor. -/
def WaveError.isInvalidInput (e : WaveError) : Prop :=
  e = WaveError.invalidHeight ∨ e = WaveError.invalidPeriod ∨ e = WaveError.invalidDepth

/-- src/src/waves/parameters.rs: struct WaveParameters. -/
structure WaveParameters where
  k : ℝ
  omega : ℝ
  c : ℝ
  h : ℝ
  d : ℝ
  period : ℝ
  wavelength : ℝ

/-- src/src/waves/parameters.rs: WaveParameters::new. -/
noncomputable def WaveParameters.new (wave_height wave_period water_depth : ℝ) :
    Except WaveError WaveParameters :=
  if wave_height ≤ 0 then .error .invalidHeight
  else if wave_period ≤ 0 then .error .invalidPeriod
  else if water_depth ≤ 0 then .error .invalidDepth
  else if 0.78 < wave_height / water_depth then .error .breakingRisk
  else
    .ok { k := 0
          omega := 2 * π / wave_period
          c := 0
          h := wave_height
          d := water_depth
          period := wave_period
          wavelength := 0 }

/-- src/src/waves/parameters.rs: WaveParameters::update_from_dispersion. -/
noncomputable def WaveParameters.update_from_dispersion
    (p : WaveParameters) (wave_number : ℝ) : WaveParameters :=
  { p with
    k := wave_number
    c := p.omega / wave_number
    wavelength := 2 * π / wave_number }

/-- src/src/waves/parameters.rs: WaveParameters::amplitude. -/
noncomputable def WaveParameters.amplitude (p : WaveParameters) : ℝ := p.h / 2

/-- src/src/waves/parameters.rs: WaveParameters::validate. -/
noncomputable def WaveParameters.validate (p : WaveParameters) : Except WaveError Unit :=
  if p.k ≤ 0 then .error .kNonpositive
  else if p.omega ≤ 0 then .error .omegaNonpositive
  else if p.c ≤ 0 then .error .cNonpositive
  else if 1e-6 < |p.c - p.omega / p.k| then .error .inconsistent
  else .ok ()

/-- src/src/waves/dispersion.rs: struct DispersionSolver. -/
structure DispersionSolver where
  max_iterations : ℕ
  tolerance : ℝ
  gravity : ℝ

/-- src/src/waves/dispersion.rs: Default for DispersionSolver. -/
noncomputable def DispersionSolver.default : DispersionSolver :=
  { max_iterations := 100, tolerance := 1e-10, gravity := 9.81 }

/-- src/src/waves/dispersion.rs: DispersionSolver::dispersion_function,
f(k) = omega^2 - g k (kd) / (1 + (kd)^2 / 4). -/
noncomputable def DispersionSolver.dispersion_function
    (S : DispersionSolver) (k omega depth : ℝ) : ℝ :=
  let kd := k * depth
  let dispersion_rhs := S.gravity * k * kd / (1 + kd * kd / 4)
  omega * omega - dispersion_rhs

/-- src/src/waves/dispersion.rs: DispersionSolver::dispersion_derivative
(the omega argument is unused in the source as well). -/
noncomputable def DispersionSolver.dispersion_derivative
    (S : DispersionSolver) (k _omega depth : ℝ) : ℝ :=
  let kd := k * depth;
  let kd2 := kd * kd;
  let denominator := 1 + kd2 / 4;
  let denominator2 := denominator * denominator;
  let term1 := kd / denominator;
  let term2 := k * depth * (1 - kd2 / 4) / denominator2;
  -S.gravity * (term1 + term2)

/-- src/src/waves/dispersion.rs: the Newton-Raphson loop of
solve_wave_number, with the remaining iteration budget as fuel; the k
argument is the current iterate. -/
noncomputable def solve_wave_number_aux
    (S : DispersionSolver) (omega depth : ℝ) : ℕ → ℝ → Except WaveError ℝ
  | 0, _ => .error .noConvergence
  | fuel + 1, k =>
    let f := S.dispersion_function k omega depth
    let df_dk := S.dispersion_derivative k omega depth
    if |df_dk| < S.tolerance then .error .derivativeUnderflow
    else
      let k_new := k - f / df_dk
      if |k_new - k| < S.tolerance then .ok k_new
      else solve_wave_number_aux S omega depth fuel (max k_new S.tolerance)

/-- src/src/waves/dispersion.rs: DispersionSolver::solve_wave_number. -/
noncomputable def DispersionSolver.solve_wave_number
    (S : DispersionSolver) (omega depth : ℝ) : Except WaveError ℝ :=
  solve_wave_number_aux S omega depth S.max_iterations (omega * omega / S.gravity)

/-- src/src/waves/dispersion.rs: DispersionSolver::solve_wave_parameters. -/
noncomputable def DispersionSolver.solve_wave_parameters
    (S : DispersionSolver) (wave_height wave_period water_depth : ℝ) :
    Except WaveError WaveParameters :=
  match WaveParameters.new wave_height wave_period water_depth with
  | .error e => .error e
  | .ok params₀ =>
    match S.solve_wave_number params₀.omega water_depth with
    | .error e => .error e
    | .ok wave_number =>
      let params := params₀.update_from_dispersion wave_number
      match params.validate with
      | .error e => .error e
      | .ok _ => .ok params

/-- src/src/waves/dispersion.rs: DispersionSolver::validate_dispersion. -/
noncomputable def DispersionSolver.validate_dispersion
    (S : DispersionSolver) (k omega depth : ℝ) : Except WaveError ℝ :=
  let residual := S.dispersion_function k omega depth
  if 1e-6 < |residual| then .error .residualTooLarge
  else .ok residual

/-- src/src/waves/velocity.rs: struct VelocityCalculator. -/
structure VelocityCalculator where
  params : WaveParameters
  gravity : ℝ

/-- src/src/waves/velocity.rs: VelocityCalculator::new (gravity 9.81). -/
noncomputable def VelocityCalculator.new (params : WaveParameters) : VelocityCalculator :=
  { params := params, gravity := 9.81 }

/-- src/src/waves/velocity.rs: VelocityCalculator::horizontal_velocity. -/
noncomputable def VelocityCalculator.horizontal_velocity
    (v : VelocityCalculator) (x time : ℝ) : ℝ :=
  let phase := v.params.k * x - v.params.omega * time;
  let amplitude := v.params.amplitude;
  let kd := v.params.k * v.params.d;
  let velocity_coeff := if kd < 0.1 then 1 else Real.tanh kd;
  amplitude * v.params.c * velocity_coeff * Real.cos phase

/-- src/src/waves/velocity.rs: VelocityCalculator::vertical_velocity. -/
noncomputable def VelocityCalculator.vertical_velocity
    (_v : VelocityCalculator) (_x _time : ℝ) : ℝ := 0

/-- src/src/waves/velocity.rs: VelocityCalculator::velocity_amplitude. -/
noncomputable def VelocityCalculator.velocity_amplitude (v : VelocityCalculator) : ℝ :=
  let kd := v.params.k * v.params.d;
  let velocity_coeff := if kd < 0.1 then 1 else Real.tanh kd;
  v.params.amplitude * v.params.c * velocity_coeff

/-- src/src/waves/velocity.rs: VelocityCalculator::surface_elevation. -/
noncomputable def VelocityCalculator.surface_elevation
    (v : VelocityCalculator) (x time : ℝ) : ℝ :=
  let phase := v.params.k * x - v.params.omega * time;
  v.params.amplitude * Real.cos phase

/-- src/src/waves/velocity.rs: VelocityCalculator::validate_energy_conservation. -/
noncomputable def VelocityCalculator.validate_energy_conservation
    (v : VelocityCalculator) (x time : ℝ) : Except WaveError ℝ :=
  let u := v.horizontal_velocity x time;
  let eta := v.surface_elevation x time;
  let kinetic_energy := 0.5 * u * u * v.params.d;
  let potential_energy := 0.5 * v.gravity * eta * eta;
  let total_energy := kinetic_energy + potential_energy;
  let expected_energy := 0.125 * v.gravity * v.params.h * v.params.h;
  let energy_error := |total_energy - expected_energy| / expected_energy;
  if 0.1 < energy_error then .error .energyDrift
  else .ok energy_error

/-- src/src/waves/boundary.rs: struct BoundaryApplicator. -/
structure BoundaryApplicator where
  velocity_calc : VelocityCalculator
  current_time : ℝ
  generation_position : ℝ
  enabled : Bool

/-- src/src/waves/boundary.rs: BoundaryApplicator::new. -/
noncomputable def BoundaryApplicator.new (params : WaveParameters) : BoundaryApplicator :=
  { velocity_calc := VelocityCalculator.new params
    current_time := 0
    generation_position := 0
    enabled := true }

/-- src/src/waves/boundary.rs: BoundaryApplicator::parameters. -/
def BoundaryApplicator.parameters (b : BoundaryApplicator) : WaveParameters :=
  b.velocity_calc.params

/-- src/src/waves/boundary.rs: BoundaryApplicator::boundary_velocity. -/
noncomputable def BoundaryApplicator.boundary_velocity (b : BoundaryApplicator) : ℝ :=
  if b.enabled = false then 0
  else b.velocity_calc.horizontal_velocity b.generation_position b.current_time

/-- src/src/waves/boundary.rs: BoundaryApplicator::boundary_surface_elevation. -/
noncomputable def BoundaryApplicator.boundary_surface_elevation (b : BoundaryApplicator) : ℝ :=
  if b.enabled = false then 0
  else b.velocity_calc.surface_elevation b.generation_position b.current_time

/-- src/src/waves/boundary.rs: BoundaryApplicator::apply_boundary_conditions;
the two borrowed grids are modelled as lists going in and coming out. -/
noncomputable def BoundaryApplicator.apply_boundary_conditions
    (b : BoundaryApplicator) (velocities surface_elevations : List ℝ) :
    List ℝ × List ℝ :=
  if b.enabled = false ∨ velocities = [] ∨ surface_elevations = [] then
    (velocities, surface_elevations)
  else
    (velocities.set 0 b.boundary_velocity,
     surface_elevations.set 0 b.boundary_surface_elevation)

/-- src/src/waves/boundary.rs: BoundaryApplicator::ramp_up_factor. -/
noncomputable def BoundaryApplicator.ramp_up_factor
    (b : BoundaryApplicator) (ramp_duration : ℝ) : ℝ :=
  if b.enabled = false then 0
  else if ramp_duration ≤ 0 then 1
  else if b.current_time < ramp_duration then
    let t_normalized := b.current_time / ramp_duration;
    0.5 * (1 - Real.cos (π * t_normalized))
  else 1

/-- src/src/waves/boundary.rs: BoundaryApplicator::apply_ramped_boundary_conditions. -/
noncomputable def BoundaryApplicator.apply_ramped_boundary_conditions
    (b : BoundaryApplicator) (velocities surface_elevations : List ℝ)
    (ramp_duration : ℝ) : List ℝ × List ℝ :=
  if b.enabled = false ∨ velocities = [] ∨ surface_elevations = [] then
    (velocities, surface_elevations)
  else
    let ramp_factor := b.ramp_up_factor ramp_duration;
    (velocities.set 0 (b.boundary_velocity * ramp_factor),
     surface_elevations.set 0 (b.boundary_surface_elevation * ramp_factor))

/-- src/src/waves/boundary.rs: BoundaryApplicator::boundary_flux. -/
noncomputable def BoundaryApplicator.boundary_flux (b : BoundaryApplicator) : ℝ :=
  if b.enabled = false then 0
  else
    let velocity := b.boundary_velocity;
    let depth := b.parameters.d;
    velocity * depth

/-- src/src/waves/boundary.rs: struct BoundaryStatus. -/
structure BoundaryStatus where
  enabled : Bool
  current_time : ℝ
  generation_position : ℝ
  current_velocity : ℝ
  current_elevation : ℝ
  wave_parameters : WaveParameters

/-- src/src/waves/boundary.rs: BoundaryApplicator::status. -/
noncomputable def BoundaryApplicator.status (b : BoundaryApplicator) : BoundaryStatus :=
  { enabled := b.enabled
    current_time := b.current_time
    generation_position := b.generation_position
    current_velocity := b.boundary_velocity
    current_elevation := b.boundary_surface_elevation
    wave_parameters := b.parameters }

/-- Truncation toward zero, the rounding used by the Rust float remainder. -/
noncomputable def floatTrunc (x : ℝ) : ℝ :=
  if 0 ≤ x then (⌊x⌋ : ℝ) else (⌈x⌉ : ℝ)

/-- The Rust f64 remainder a % b: a - b * trunc (a / b), which takes the
sign of the dividend a. -/
noncomputable def floatRem (a b : ℝ) : ℝ :=
  a - b * floatTrunc (a / b)

/-- src/src/waves/boundary.rs: BoundaryStatus::current_phase. -/
noncomputable def BoundaryStatus.current_phase (s : BoundaryStatus) : ℝ :=
  s.wave_parameters.k * s.generation_position - s.wave_parameters.omega * s.current_time

/-- src/src/waves/boundary.rs: BoundaryStatus::at_wave_crest. -/
noncomputable def BoundaryStatus.at_wave_crest (s : BoundaryStatus) (tolerance : ℝ) : Prop :=
  let phase := s.current_phase;
  let crest_phase := floatRem phase (2 * π);
  |crest_phase| < tolerance ∨ |crest_phase - 2 * π| < tolerance

/-- src/src/waves/boundary.rs: BoundaryStatus::at_wave_trough. -/
noncomputable def BoundaryStatus.at_wave_trough (s : BoundaryStatus) (tolerance : ℝ) : Prop :=
  let phase := s.current_phase;
  let trough_phase := floatRem (phase + π) (2 * π);
  |trough_phase| < tolerance ∨ |trough_phase - 2 * π| < tolerance

/-!  Theorems  -/

/-- C2: WaveParameters::new fails with an invalid-input error exactly when
one of H, T, d is nonpositive, fails with the breaking-risk error when all
are positive and H/d > 0.78, and otherwise succeeds with omega = 2 pi / T
and the sentinel fields k = c = wavelength = 0; the ratio H/d = 0.78 is
accepted. -/
theorem new_input_validation (H T d : ℝ) :
    ((∃ e, WaveParameters.new H T d = .error e ∧ e.isInvalidInput) ↔
        H ≤ 0 ∨ T ≤ 0 ∨ d ≤ 0) ∧
    (0 < H → 0 < T → 0 < d → 0.78 < H / d →
        WaveParameters.new H T d = .error .breakingRisk) ∧
    (0 < H → 0 < T → 0 < d → H / d ≤ 0.78 →
        WaveParameters.new H T d = .ok ⟨0, 2 * π / T, 0, H, d, T, 0⟩) := by
  refine ⟨⟨?_, ?_⟩, ?_, ?_⟩
  · rintro ⟨e, he, hinv⟩
    unfold WaveParameters.new at he
    split_ifs at he with h1 h2 h3 h4
    · exact Or.inl h1
    · exact Or.inr (Or.inl h2)
    · exact Or.inr (Or.inr h3)
    · injection he with h
      rw [← h] at hinv
      rcases hinv with h' | h' | h' <;> exact absurd h' (by decide)
  · intro h
    unfold WaveParameters.new
    rcases h with h | h | h
    · exact ⟨.invalidHeight, by rw [if_pos h], Or.inl rfl⟩
    · by_cases h1 : H ≤ 0
      · exact ⟨.invalidHeight, by rw [if_pos h1], Or.inl rfl⟩
      · exact ⟨.invalidPeriod, by rw [if_neg h1, if_pos h], Or.inr (Or.inl rfl)⟩
    · by_cases h1 : H ≤ 0
      · exact ⟨.invalidHeight, by rw [if_pos h1], Or.inl rfl⟩
      · by_cases h2 : T ≤ 0
        · exact ⟨.invalidPeriod, by rw [if_neg h1, if_pos h2], Or.inr (Or.inl rfl)⟩
        · exact ⟨.invalidDepth, by rw [if_neg h1, if_neg h2, if_pos h],
            Or.inr (Or.inr rfl)⟩
  · intro hH hT hd hb
    unfold WaveParameters.new
    rw [if_neg (not_le.mpr hH), if_neg (not_le.mpr hT), if_neg (not_le.mpr hd),
      if_pos hb]
  · intro hH hT hd hb
    unfold WaveParameters.new
    rw [if_neg (not_le.mpr hH), if_neg (not_le.mpr hT), if_neg (not_le.mpr hd),
      if_neg (not_lt.mpr hb)]

/-- C2 witness: at H = 0.78, T = 1, d = 1 every hypothesis of the success
branch holds (in particular H/d is exactly 0.78) and construction
succeeds with omega = 2 pi and zero sentinels. -/
theorem new_input_validation_witness :
    (0 : ℝ) < 0.78 ∧ (0 : ℝ) < 1 ∧ (0 : ℝ) < 1 ∧ (0.78 : ℝ) / 1 ≤ 0.78 ∧
    WaveParameters.new 0.78 1 1 = .ok ⟨0, 2 * π / 1, 0, 0.78, 1, 1, 0⟩ :=
  ⟨by norm_num, by norm_num, by norm_num, by norm_num,
    (new_input_validation 0.78 1 1).2.2 (by norm_num) (by norm_num) (by norm_num)
      (by norm_num)⟩

/-- C10: update_from_dispersion sets c to exactly omega / k, so the
consistency branch of validate can never fire on its output: validate can
only fail through one of the three positivity checks. -/
theorem update_from_dispersion_consistency (p : WaveParameters) (kn : ℝ)
    (hk : kn ≠ 0) :
    (p.update_from_dispersion kn).c = p.omega / kn ∧
    ¬ (1e-6 < |(p.update_from_dispersion kn).c -
        (p.update_from_dispersion kn).omega / (p.update_from_dispersion kn).k|) ∧
    (∀ e, (p.update_from_dispersion kn).validate = .error e →
        e = .kNonpositive ∨ e = .omegaNonpositive ∨ e = .cNonpositive) := by
  have hc : (p.update_from_dispersion kn).c = p.omega / kn := rfl
  have hzero : ¬ ((1e-6 : ℝ) < |(p.update_from_dispersion kn).c -
      (p.update_from_dispersion kn).omega / (p.update_from_dispersion kn).k|) := by
    have : (p.update_from_dispersion kn).c -
        (p.update_from_dispersion kn).omega / (p.update_from_dispersion kn).k = 0 := by
      show p.omega / kn - p.omega / kn = 0
      ring
    rw [this, abs_zero]
    norm_num
  refine ⟨hc, hzero, ?_⟩
  intro e he
  unfold WaveParameters.validate at he
  split_ifs at he with h1 h2 h3
  · injection he with h; exact Or.inl h.symm
  · injection he with h; exact Or.inr (Or.inl h.symm)
  · injection he with h; exact Or.inr (Or.inr h.symm)

/-- C10 witness: a concrete update at k = 2 of a parameter record with
omega = 1; the hypothesis k not zero holds and the conclusions follow. -/
theorem update_from_dispersion_consistency_witness :
    (2 : ℝ) ≠ 0 ∧
    ((WaveParameters.mk 0 1 0 1 1 1 0).update_from_dispersion 2).c = 1 / 2 ∧
    (∀ e, ((WaveParameters.mk 0 1 0 1 1 1 0).update_from_dispersion 2).validate =
        .error e →
        e = .kNonpositive ∨ e = .omegaNonpositive ∨ e = .cNonpositive) :=
  ⟨by norm_num,
    (update_from_dispersion_consistency ⟨0, 1, 0, 1, 1, 1, 0⟩ 2 (by norm_num)).1,
    (update_from_dispersion_consistency ⟨0, 1, 0, 1, 1, 1, 0⟩ 2 (by norm_num)).2.2⟩

/-- C4: for every calculator and every x and t, with phase
phi = k x - omega t, amplitude a = H/2 and depth coefficient
D = 1 when kd < 0.1 and tanh kd otherwise:
eta = a cos phi, u = a c D cos phi, the velocity amplitude is a c D, and
the vertical velocity is identically zero. -/
theorem kinematics_formulas (v : VelocityCalculator) (x t : ℝ) :
    v.surface_elevation x t =
      v.params.h / 2 * Real.cos (v.params.k * x - v.params.omega * t) ∧
    v.horizontal_velocity x t =
      v.params.h / 2 * v.params.c *
        (if v.params.k * v.params.d < 0.1 then 1
         else Real.tanh (v.params.k * v.params.d)) *
        Real.cos (v.params.k * x - v.params.omega * t) ∧
    v.velocity_amplitude =
      v.params.h / 2 * v.params.c *
        (if v.params.k * v.params.d < 0.1 then 1
         else Real.tanh (v.params.k * v.params.d)) ∧
    v.vertical_velocity x t = 0 :=
  ⟨rfl, rfl, rfl, rfl⟩

/-- C7: when the driver is disabled all three boundary values are zero;
when enabled, the boundary velocity and elevation are the kinematics
fields at (x0, t); and the boundary flux always equals the boundary
velocity times the water depth. -/
theorem boundary_values (b : BoundaryApplicator) :
    (b.enabled = false →
      b.boundary_velocity = 0 ∧ b.boundary_surface_elevation = 0 ∧
      b.boundary_flux = 0) ∧
    (b.enabled = true →
      b.boundary_velocity =
        b.velocity_calc.horizontal_velocity b.generation_position b.current_time ∧
      b.boundary_surface_elevation =
        b.velocity_calc.surface_elevation b.generation_position b.current_time) ∧
    b.boundary_flux = b.boundary_velocity * b.parameters.d := by
  cases hb : b.enabled <;>
    simp [BoundaryApplicator.boundary_velocity,
      BoundaryApplicator.boundary_surface_elevation,
      BoundaryApplicator.boundary_flux, hb]

/-- A tiny concrete parameter record shared by several witnesses. -/
def Pc : WaveParameters := ⟨1, 1, 1, 1, 1, 1, 1⟩

/-- A concrete enabled boundary applicator at time zero, position zero. -/
noncomputable def B₀ : BoundaryApplicator := ⟨⟨Pc, 9.81⟩, 0, 0, true⟩

/-- C7 witness: the enabled case at a concrete applicator. -/
theorem boundary_values_witness :
    B₀.enabled = true ∧
    (B₀.boundary_velocity =
        B₀.velocity_calc.horizontal_velocity B₀.generation_position B₀.current_time ∧
      B₀.boundary_surface_elevation =
        B₀.velocity_calc.surface_elevation B₀.generation_position B₀.current_time) ∧
    B₀.boundary_flux = B₀.boundary_velocity * B₀.parameters.d :=
  ⟨rfl, (boundary_values B₀).2.1 rfl, (boundary_values B₀).2.2⟩

/-- C8: the energy diagnostic returns the relative error
e = (KE + PE - Estar) / Estar in absolute value, with KE = u^2 d / 2,
PE = g eta^2 / 2 and reference Estar = g H^2 / 8, and fails with the
energy-drift error exactly when that error exceeds 0.1. -/
theorem energy_check (v : VelocityCalculator) (x t : ℝ) :
    v.validate_energy_conservation x t =
      if 0.1 < |1 / 2 * (v.horizontal_velocity x t) ^ 2 * v.params.d
            + 1 / 2 * v.gravity * (v.surface_elevation x t) ^ 2
            - v.gravity * v.params.h ^ 2 / 8| / (v.gravity * v.params.h ^ 2 / 8)
      then .error .energyDrift
      else .ok (|1 / 2 * (v.horizontal_velocity x t) ^ 2 * v.params.d
            + 1 / 2 * v.gravity * (v.surface_elevation x t) ^ 2
            - v.gravity * v.params.h ^ 2 / 8| / (v.gravity * v.params.h ^ 2 / 8)) := by
  have key : |0.5 * v.horizontal_velocity x t * v.horizontal_velocity x t * v.params.d
        + 0.5 * v.gravity * v.surface_elevation x t * v.surface_elevation x t
        - 0.125 * v.gravity * v.params.h * v.params.h| /
          (0.125 * v.gravity * v.params.h * v.params.h)
      = |1 / 2 * (v.horizontal_velocity x t) ^ 2 * v.params.d
            + 1 / 2 * v.gravity * (v.surface_elevation x t) ^ 2
            - v.gravity * v.params.h ^ 2 / 8| / (v.gravity * v.params.h ^ 2 / 8) := by
    rw [show (0.5 : ℝ) * v.horizontal_velocity x t * v.horizontal_velocity x t * v.params.d
        + 0.5 * v.gravity * v.surface_elevation x t * v.surface_elevation x t
        - 0.125 * v.gravity * v.params.h * v.params.h
        = 1 / 2 * (v.horizontal_velocity x t) ^ 2 * v.params.d
            + 1 / 2 * v.gravity * (v.surface_elevation x t) ^ 2
            - v.gravity * v.params.h ^ 2 / 8 from by ring,
      show (0.125 : ℝ) * v.gravity * v.params.h * v.params.h
        = v.gravity * v.params.h ^ 2 / 8 from by ring]
  simp only [VelocityCalculator.validate_energy_conservation]
  rw [key]

/-- C5: the ramp factor is 0 when disabled, 1 for nonpositive ramp
durations, the raised cosine before the ramp ends, and 1 from the ramp
duration on; at times 0, tau/2 and tau it takes the values 0, 1/2 and 1,
and it is monotone nondecreasing on the ramp interval. -/
theorem ramp_up_factor_spec (b : BoundaryApplicator) (τ : ℝ) :
    (b.enabled = false → b.ramp_up_factor τ = 0) ∧
    (b.enabled = true → τ ≤ 0 → b.ramp_up_factor τ = 1) ∧
    (b.enabled = true → 0 ≤ b.current_time → b.current_time < τ →
        b.ramp_up_factor τ = 1 / 2 * (1 - Real.cos (π * b.current_time / τ))) ∧
    (b.enabled = true → τ ≤ b.current_time → b.ramp_up_factor τ = 1) ∧
    (b.enabled = true → 0 < τ →
        BoundaryApplicator.ramp_up_factor { b with current_time := 0 } τ = 0 ∧
        BoundaryApplicator.ramp_up_factor { b with current_time := τ / 2 } τ = 1 / 2 ∧
        BoundaryApplicator.ramp_up_factor { b with current_time := τ } τ = 1) ∧
    (b.enabled = true → 0 < τ → ∀ t₁ t₂ : ℝ, 0 ≤ t₁ → t₁ ≤ t₂ → t₂ ≤ τ →
        BoundaryApplicator.ramp_up_factor { b with current_time := t₁ } τ ≤
        BoundaryApplicator.ramp_up_factor { b with current_time := t₂ } τ) := by
  refine ⟨?_, ?_, ?_, ?_, ?_, ?_⟩
  · intro hb
    simp [BoundaryApplicator.ramp_up_factor, hb]
  · intro hb hτ
    simp [BoundaryApplicator.ramp_up_factor, hb, hτ]
  · intro hb h0 htlt
    have hτ : ¬ τ ≤ 0 := not_le.mpr (lt_of_le_of_lt h0 htlt)
    simp only [BoundaryApplicator.ramp_up_factor, hb]
    rw [if_neg (by simp), if_neg hτ, if_pos htlt]
    rw [mul_div_assoc]
    norm_num
  · intro hb hτt
    by_cases hτ : τ ≤ 0
    · simp [BoundaryApplicator.ramp_up_factor, hb, hτ]
    · simp only [BoundaryApplicator.ramp_up_factor, hb]
      rw [if_neg (by simp), if_neg hτ, if_neg (not_lt.mpr hτt)]
  · intro hb hτ
    have hτ0 : ¬ τ ≤ 0 := not_le.mpr hτ
    have hτne : τ ≠ 0 := ne_of_gt hτ
    refine ⟨?_, ?_, ?_⟩
    · simp only [BoundaryApplicator.ramp_up_factor, hb]
      rw [if_neg (by simp), if_neg hτ0, if_pos hτ]
      simp
    · simp only [BoundaryApplicator.ramp_up_factor, hb]
      rw [if_neg (by simp), if_neg hτ0, if_pos (half_lt_self hτ)]
      have harg : τ / 2 / τ = 1 / 2 := by field_simp; ring
      rw [harg, show π * (1 / 2) = π / 2 from by ring, Real.cos_pi_div_two]
      norm_num
    · simp only [BoundaryApplicator.ramp_up_factor, hb]
      rw [if_neg (by simp), if_neg hτ0, if_neg (lt_irrefl τ)]
  · intro hb hτ t₁ t₂ h1 h12 h2τ
    have hτ0 : ¬ τ ≤ 0 := not_le.mpr hτ
    simp only [BoundaryApplicator.ramp_up_factor, hb]
    have htf : ¬(true = false) := by simp
    rw [if_neg htf, if_neg hτ0, if_neg htf, if_neg hτ0]
    by_cases h2 : t₂ < τ
    · have h1lt : t₁ < τ := lt_of_le_of_lt h12 h2
      rw [if_pos h1lt, if_pos h2]
      have hcos : Real.cos (π * (t₂ / τ)) ≤ Real.cos (π * (t₁ / τ)) := by
        apply Real.cos_le_cos_of_nonneg_of_le_pi
        · positivity
        · have ht2 : t₂ / τ ≤ 1 := (div_le_one hτ).mpr h2τ
          nlinarith [Real.pi_pos]
        · have : t₁ / τ ≤ t₂ / τ := by gcongr
          nlinarith [Real.pi_pos]
      nlinarith
    · rw [if_neg h2]
      by_cases h1lt : t₁ < τ
      · rw [if_pos h1lt]
        have := Real.neg_one_le_cos (π * (t₁ / τ))
        nlinarith
      · rw [if_neg h1lt]

/-- C5 witness: a concrete enabled applicator with ramp duration 2; the
hypotheses hold and the three tabulated ramp values follow. -/
theorem ramp_up_factor_spec_witness :
    B₀.enabled = true ∧ (0 : ℝ) < 2 ∧
    BoundaryApplicator.ramp_up_factor { B₀ with current_time := 0 } 2 = 0 ∧
    BoundaryApplicator.ramp_up_factor { B₀ with current_time := 2 / 2 } 2 = 1 / 2 ∧
    BoundaryApplicator.ramp_up_factor { B₀ with current_time := 2 } 2 = 1 :=
  ⟨rfl, by norm_num,
    ((ramp_up_factor_spec B₀ 2).2.2.2.2.1 rfl (by norm_num)).1,
    ((ramp_up_factor_spec B₀ 2).2.2.2.2.1 rfl (by norm_num)).2.1,
    ((ramp_up_factor_spec B₀ 2).2.2.2.2.1 rfl (by norm_num)).2.2⟩

/-- C6: both apply operations write only index 0 of each grid, leave all
cells at index at least 1 unchanged, are no-ops when the driver is
disabled or either grid is empty, and the ramped variant writes the plain
boundary values multiplied by the ramp factor. -/
theorem apply_boundary_frame (b : BoundaryApplicator) (vel eta : List ℝ) (τ : ℝ) :
    (∀ i : ℕ, 1 ≤ i →
        (b.apply_boundary_conditions vel eta).1[i]? = vel[i]? ∧
        (b.apply_boundary_conditions vel eta).2[i]? = eta[i]? ∧
        (b.apply_ramped_boundary_conditions vel eta τ).1[i]? = vel[i]? ∧
        (b.apply_ramped_boundary_conditions vel eta τ).2[i]? = eta[i]?) ∧
    (b.enabled = false ∨ vel = [] ∨ eta = [] →
        b.apply_boundary_conditions vel eta = (vel, eta) ∧
        b.apply_ramped_boundary_conditions vel eta τ = (vel, eta)) ∧
    (b.enabled = true → vel ≠ [] → eta ≠ [] →
        (b.apply_boundary_conditions vel eta).1[0]? = some b.boundary_velocity ∧
        (b.apply_boundary_conditions vel eta).2[0]? =
          some b.boundary_surface_elevation ∧
        (b.apply_ramped_boundary_conditions vel eta τ).1[0]? =
          some (b.boundary_velocity * b.ramp_up_factor τ) ∧
        (b.apply_ramped_boundary_conditions vel eta τ).2[0]? =
          some (b.boundary_surface_elevation * b.ramp_up_factor τ)) := by
  refine ⟨?_, ?_, ?_⟩
  · intro i hi
    have hne : (0 : ℕ) ≠ i := by omega
    unfold BoundaryApplicator.apply_boundary_conditions
      BoundaryApplicator.apply_ramped_boundary_conditions
    split_ifs with h
    · exact ⟨rfl, rfl, rfl, rfl⟩
    · exact ⟨List.getElem?_set_ne hne, List.getElem?_set_ne hne,
        List.getElem?_set_ne hne, List.getElem?_set_ne hne⟩
  · intro h
    unfold BoundaryApplicator.apply_boundary_conditions
      BoundaryApplicator.apply_ramped_boundary_conditions
    rw [if_pos h, if_pos h]
    exact ⟨rfl, rfl⟩
  · intro hb hv he
    have hcond : ¬ (b.enabled = false ∨ vel = [] ∨ eta = []) := by
      simp [hb, hv, he]
    have hvl : 0 < vel.length := List.length_pos.mpr hv
    have hel : 0 < eta.length := List.length_pos.mpr he
    unfold BoundaryApplicator.apply_boundary_conditions
      BoundaryApplicator.apply_ramped_boundary_conditions
    rw [if_neg hcond, if_neg hcond]
    exact ⟨List.getElem?_set_self hvl, List.getElem?_set_self hel,
      List.getElem?_set_self hvl, List.getElem?_set_self hel⟩

/-- C6 witness: concrete two-cell grids with the enabled applicator; the
hypotheses hold and cell 1 of each grid is untouched while cell 0 holds
the (ramped) boundary values. -/
theorem apply_boundary_frame_witness :
    (1 ≤ 1 ∧ B₀.enabled = true ∧ ([(3 : ℝ), 4] : List ℝ) ≠ [] ∧
      ([(5 : ℝ), 6] : List ℝ) ≠ []) ∧
    (B₀.apply_boundary_conditions [3, 4] [5, 6]).1[1]? = ([(3 : ℝ), 4] : List ℝ)[1]? ∧
    (B₀.apply_ramped_boundary_conditions [3, 4] [5, 6] 2).2[1]? =
      ([(5 : ℝ), 6] : List ℝ)[1]? ∧
    (B₀.apply_ramped_boundary_conditions [3, 4] [5, 6] 2).1[0]? =
      some (B₀.boundary_velocity * B₀.ramp_up_factor 2) :=
  ⟨⟨le_refl 1, rfl, by simp, by simp⟩,
    ((apply_boundary_frame B₀ [3, 4] [5, 6] 2).1 1 (le_refl 1)).1,
    ((apply_boundary_frame B₀ [3, 4] [5, 6] 2).1 1 (le_refl 1)).2.2.2,
    ((apply_boundary_frame B₀ [3, 4] [5, 6] 2).2.2 rfl (by simp) (by simp)).2.2.1⟩

/-- The one-layer dispersion derivative is strictly negative at any
positive wave number and depth: term1 + term2 collapses to
2 kd / (1 + kd^2/4)^2 > 0, and the code negates it and scales by g. -/
lemma dispersion_derivative_neg (S : DispersionSolver) (omega : ℝ) {k d : ℝ}
    (hg : 0 < S.gravity) (hk : 0 < k) (hd : 0 < d) :
    S.dispersion_derivative k omega d < 0 := by
  simp only [DispersionSolver.dispersion_derivative]
  have hs : 0 < k * d := mul_pos hk hd
  have hden : 0 < 1 + k * d * (k * d) / 4 := by positivity
  have key : k * d / (1 + k * d * (k * d) / 4) +
      k * d * (1 - k * d * (k * d) / 4) /
        ((1 + k * d * (k * d) / 4) * (1 + k * d * (k * d) / 4)) =
      2 * (k * d) / ((1 + k * d * (k * d) / 4) * (1 + k * d * (k * d) / 4)) := by
    field_simp
    ring
  rw [key]
  have hpos : 0 < 2 * (k * d) /
      ((1 + k * d * (k * d) / 4) * (1 + k * d * (k * d) / 4)) := by positivity
  nlinarith [mul_pos hg hpos]

/-- At the deep-water initial guess k0 = omega^2 / g the dispersion
residual is nonnegative, because s / (1 + s^2/4) is at most 1. -/
lemma dispersion_function_init_nonneg (S : DispersionSolver) {omega d : ℝ}
    (hg : 0 < S.gravity) (hω : 0 < omega) (hd : 0 < d) :
    0 ≤ S.dispersion_function (omega * omega / S.gravity) omega d := by
  simp only [DispersionSolver.dispersion_function]
  set k0 := omega * omega / S.gravity with hk0def
  have hk0 : 0 < k0 := div_pos (mul_pos hω hω) hg
  have hgk : S.gravity * k0 = omega * omega := by
    rw [hk0def]
    field_simp
  have hden : 0 < 1 + k0 * d * (k0 * d) / 4 := by positivity
  have hineq : k0 * d ≤ 1 + k0 * d * (k0 * d) / 4 := by
    nlinarith [sq_nonneg (1 - k0 * d / 2)]
  have hratio : k0 * d / (1 + k0 * d * (k0 * d) / 4) ≤ 1 := (div_le_one hden).mpr hineq
  have hrw : S.gravity * k0 * (k0 * d) / (1 + k0 * d * (k0 * d) / 4) =
      (omega * omega) * (k0 * d / (1 + k0 * d * (k0 * d) / 4)) := by
    rw [mul_div_assoc] at *
    rw [hgk]
  rw [hrw]
  nlinarith [mul_le_mul_of_nonneg_left hratio (mul_pos hω hω).le]

/-- Positivity invariant of the Newton loop: starting from a positive
iterate that is either at least the tolerance or has nonnegative
residual, any wave number the loop returns is strictly positive. -/
lemma solve_aux_pos (S : DispersionSolver) (omega d : ℝ) (hg : 0 < S.gravity)
    (hd : 0 < d) (ht : 0 < S.tolerance) :
    ∀ (n : ℕ) (k : ℝ), 0 < k →
      (S.tolerance ≤ k ∨ 0 ≤ S.dispersion_function k omega d) →
      ∀ r, solve_wave_number_aux S omega d n k = .ok r → 0 < r := by
  intro n
  induction n with
  | zero => intro k _ _ r hr; exact Except.noConfusion hr
  | succ n ih =>
    intro k hk hinv r hr
    simp only [solve_wave_number_aux] at hr
    by_cases hdf : |S.dispersion_derivative k omega d| < S.tolerance
    · rw [if_pos hdf] at hr
      exact Except.noConfusion hr
    · rw [if_neg hdf] at hr
      by_cases hconv : |k - S.dispersion_function k omega d /
          S.dispersion_derivative k omega d - k| < S.tolerance
      · rw [if_pos hconv] at hr
        injection hr with h
        rw [← h]
        have hdneg : S.dispersion_derivative k omega d < 0 :=
          dispersion_derivative_neg S omega hg hk hd
        rcases hinv with htk | hf
        · have habs := abs_lt.mp hconv
          linarith [habs.1]
        · have hq : S.dispersion_function k omega d /
              S.dispersion_derivative k omega d ≤ 0 :=
            div_nonpos_iff.mpr (Or.inl ⟨hf, hdneg.le⟩)
          linarith
      · rw [if_neg hconv] at hr
        exact ih (max (k - S.dispersion_function k omega d /
            S.dispersion_derivative k omega d) S.tolerance)
          (lt_of_lt_of_le ht (le_max_right _ _)) (Or.inl (le_max_right _ _)) r hr

/-- C3: the Newton solver starts from the deep-water guess omega^2 / g;
exhausted fuel yields the no-convergence error; each step fails with the
derivative-underflow error when the derivative magnitude is below the
tolerance, returns the unclamped k_new when the update is below the
tolerance, and otherwise recurses on k_new clamped to at least the
tolerance; any wave number returned on convergence is strictly
positive. -/
theorem solve_wave_number_spec (S : DispersionSolver) (omega d : ℝ)
    (hω : 0 < omega) (hd : 0 < d) (hg : 0 < S.gravity) (ht : 0 < S.tolerance) :
    S.solve_wave_number omega d =
      solve_wave_number_aux S omega d S.max_iterations (omega * omega / S.gravity) ∧
    (∀ k : ℝ, solve_wave_number_aux S omega d 0 k = .error .noConvergence) ∧
    (∀ (n : ℕ) (k : ℝ), solve_wave_number_aux S omega d (n + 1) k =
        if |S.dispersion_derivative k omega d| < S.tolerance then
          .error .derivativeUnderflow
        else if |k - S.dispersion_function k omega d /
            S.dispersion_derivative k omega d - k| < S.tolerance then
          .ok (k - S.dispersion_function k omega d / S.dispersion_derivative k omega d)
        else
          solve_wave_number_aux S omega d n
            (max (k - S.dispersion_function k omega d /
              S.dispersion_derivative k omega d) S.tolerance)) ∧
    (∀ r : ℝ, S.solve_wave_number omega d = .ok r → 0 < r) := by
  refine ⟨rfl, fun k => rfl, fun n k => rfl, ?_⟩
  intro r hr
  have hk0 : 0 < omega * omega / S.gravity := div_pos (mul_pos hω hω) hg
  exact solve_aux_pos S omega d hg hd ht S.max_iterations _ hk0
    (Or.inr (dispersion_function_init_nonneg S hg hω hd)) r hr

/-- C3 witness: a concrete solver and inputs meeting every hypothesis;
the positivity of any returned wave number follows. -/
theorem solve_wave_number_spec_witness :
    (0 : ℝ) < 1 ∧ (0 : ℝ) < 1 ∧
    (0 : ℝ) < (DispersionSolver.mk 100 (1 / 100) 1).gravity ∧
    (0 : ℝ) < (DispersionSolver.mk 100 (1 / 100) 1).tolerance ∧
    (∀ r : ℝ, (DispersionSolver.mk 100 (1 / 100) 1).solve_wave_number 1 1 = .ok r →
      0 < r) :=
  ⟨by norm_num, by norm_num, by norm_num, by norm_num,
    (solve_wave_number_spec (DispersionSolver.mk 100 (1 / 100) 1) 1 1 (by norm_num)
      (by norm_num) (by norm_num) (by norm_num)).2.2.2⟩

/-- A solver with a loose convergence tolerance of 1/100, permitted by
with_params in the source (max_iterations 100, gravity 1). -/
noncomputable def S₀ : DispersionSolver := ⟨100, 1 / 100, 1⟩

/-- The angular frequency sqrt(21/10) of the concrete run below. -/
noncomputable def ω₀ : ℝ := Real.sqrt (21 / 10)

/-- The period whose 2 pi / T equals ω₀. -/
noncomputable def T₀ : ℝ := 2 * π / ω₀

/-- The wave number produced by the first (and converging) Newton step of
the concrete run: 21/10 + (21/8410) / (672000/707281). -/
noncomputable def k₁ : ℝ := 11883044901 / 5651520000

/-- The parameter record returned by the concrete run. -/
noncomputable def P₁ : WaveParameters := ⟨k₁, ω₀, ω₀ / k₁, 1 / 2, 1, T₀, 2 * π / k₁⟩

lemma ω₀_pos : 0 < ω₀ := Real.sqrt_pos.mpr (by norm_num)

lemma ω₀_sq : ω₀ * ω₀ = 21 / 10 := Real.mul_self_sqrt (by norm_num)

lemma T₀_pos : 0 < T₀ := div_pos (by positivity) ω₀_pos

lemma omega_of_T₀ : 2 * π / T₀ = ω₀ := by
  have h2π : (2 : ℝ) * π ≠ 0 := by positivity
  have hω : ω₀ ≠ 0 := ne_of_gt ω₀_pos
  rw [T₀]
  rw [div_div_eq_mul_div, mul_comm (2 * π) ω₀, mul_div_assoc, div_self h2π, mul_one]

lemma k₁_pos : 0 < k₁ := by rw [k₁]; norm_num

lemma f_at_k0 : S₀.dispersion_function (21 / 10) ω₀ 1 = 21 / 8410 := by
  simp only [DispersionSolver.dispersion_function]
  rw [ω₀_sq, show S₀.gravity = 1 from rfl]
  norm_num

lemma df_at_k0 : S₀.dispersion_derivative (21 / 10) ω₀ 1 = -(672000 / 707281) := by
  simp only [DispersionSolver.dispersion_derivative]
  rw [show S₀.gravity = 1 from rfl]
  norm_num

lemma newton_eval : S₀.solve_wave_number ω₀ 1 = .ok k₁ := by
  unfold DispersionSolver.solve_wave_number
  have hinit : ω₀ * ω₀ / S₀.gravity = 21 / 10 := by
    rw [ω₀_sq, show S₀.gravity = 1 from rfl]
    norm_num
  rw [show S₀.max_iterations = 100 from rfl, hinit]
  show solve_wave_number_aux S₀ ω₀ 1 (99 + 1) (21 / 10) = .ok k₁
  rw [solve_wave_number_aux]
  dsimp only
  rw [f_at_k0, df_at_k0, show S₀.tolerance = 1 / 100 from rfl]
  rw [if_neg (by rw [abs_of_nonpos (by norm_num)]; norm_num)]
  rw [if_pos (by rw [abs_of_nonneg (by norm_num)]; norm_num)]
  congr 1
  rw [k₁]
  norm_num

lemma new_eval :
    WaveParameters.new (1 / 2) T₀ 1 = .ok ⟨0, 2 * π / T₀, 0, 1 / 2, 1, T₀, 0⟩ := by
  unfold WaveParameters.new
  rw [if_neg (by norm_num : ¬ ((1 : ℝ) / 2 ≤ 0)),
    if_neg (not_le.mpr T₀_pos),
    if_neg (by norm_num : ¬ ((1 : ℝ) ≤ 0)),
    if_neg (by norm_num : ¬ ((0.78 : ℝ) < 1 / 2 / 1))]

lemma validate_P₁ : P₁.validate = .ok () := by
  unfold WaveParameters.validate
  have h4 : ¬ ((1e-6 : ℝ) < |P₁.c - P₁.omega / P₁.k|) := by
    have hz : P₁.c - P₁.omega / P₁.k = 0 := sub_self _
    rw [hz, abs_zero]
    norm_num
  rw [if_neg (not_le.mpr (show (0 : ℝ) < P₁.k from k₁_pos)),
    if_neg (not_le.mpr (show (0 : ℝ) < P₁.omega from ω₀_pos)),
    if_neg (not_le.mpr (show (0 : ℝ) < P₁.c from div_pos ω₀_pos k₁_pos)),
    if_neg h4]

lemma solve_concrete : S₀.solve_wave_parameters (1 / 2) T₀ 1 = .ok P₁ := by
  unfold DispersionSolver.solve_wave_parameters
  rw [new_eval, omega_of_T₀]
  show (match S₀.solve_wave_number (WaveParameters.mk 0 ω₀ 0 (1 / 2) 1 T₀ 0).omega 1 with
    | .error e => (.error e : Except WaveError WaveParameters)
    | .ok wave_number =>
      match ((WaveParameters.mk 0 ω₀ 0 (1 / 2) 1 T₀ 0).update_from_dispersion
          wave_number).validate with
      | .error e => .error e
      | .ok _ =>
        .ok ((WaveParameters.mk 0 ω₀ 0 (1 / 2) 1 T₀ 0).update_from_dispersion
          wave_number)) = .ok P₁
  rw [show (WaveParameters.mk 0 ω₀ 0 (1 / 2) 1 T₀ 0).omega = ω₀ from rfl, newton_eval]
  show (match ((WaveParameters.mk 0 ω₀ 0 (1 / 2) 1 T₀ 0).update_from_dispersion
      k₁).validate with
    | .error e => (.error e : Except WaveError WaveParameters)
    | .ok _ =>
      .ok ((WaveParameters.mk 0 ω₀ 0 (1 / 2) 1 T₀ 0).update_from_dispersion k₁)) = .ok P₁
  rw [show (WaveParameters.mk 0 ω₀ 0 (1 / 2) 1 T₀ 0).update_from_dispersion k₁ = P₁
    from rfl, validate_P₁]

lemma residual_at_k₁ : (1e-6 : ℝ) ≤ |S₀.dispersion_function k₁ ω₀ 1| := by
  simp only [DispersionSolver.dispersion_function]
  rw [ω₀_sq, show S₀.gravity = 1 from rfl, k₁]
  rw [abs_of_nonneg (by norm_num)]
  norm_num

/-- The constructor can only fail with one of its four own errors. -/
lemma new_error_not_residual (H T d : ℝ) (e : WaveError)
    (h : WaveParameters.new H T d = .error e) : e ≠ .residualTooLarge := by
  unfold WaveParameters.new at h
  split_ifs at h <;> (injection h with h'; rw [← h']; decide)

/-- The Newton loop can only fail with underflow or no-convergence. -/
lemma solve_aux_error_not_residual (S : DispersionSolver) (omega d : ℝ) :
    ∀ (n : ℕ) (k : ℝ) (e : WaveError),
      solve_wave_number_aux S omega d n k = .error e → e ≠ .residualTooLarge := by
  intro n
  induction n with
  | zero =>
    intro k e h
    injection h with h'
    rw [← h']
    decide
  | succ n ih =>
    intro k e h
    simp only [solve_wave_number_aux] at h
    split_ifs at h with h1 h2
    · injection h with h'
      rw [← h']
      decide
    · exact ih _ e h

/-- validate can only fail with one of its four own errors. -/
lemma validate_error_not_residual (p : WaveParameters) (e : WaveError)
    (h : p.validate = .error e) : e ≠ .residualTooLarge := by
  unfold WaveParameters.validate at h
  split_ifs at h <;> (injection h with h'; rw [← h']; decide)

/-- C1 (amended): whenever solve_wave_parameters succeeds the returned
parameters pass validate; solve_wave_parameters itself performs no
residual check and can never fail with the residual-too-large error; the
residual check lives in the separate validate_dispersion, which fails
with residual-too-large exactly when |f(k, omega, d)| > 1e-6 and
otherwise returns the residual itself. -/
theorem solve_wave_parameters_validate (S : DispersionSolver) (H T d : ℝ) :
    (∀ p, S.solve_wave_parameters H T d = .ok p → p.validate = .ok ()) ∧
    S.solve_wave_parameters H T d ≠ .error .residualTooLarge ∧
    (∀ k omega dep : ℝ,
        (S.validate_dispersion k omega dep = .error .residualTooLarge ↔
          1e-6 < |S.dispersion_function k omega dep|) ∧
        (¬ 1e-6 < |S.dispersion_function k omega dep| →
          S.validate_dispersion k omega dep =
            .ok (S.dispersion_function k omega dep))) := by
  refine ⟨?_, ?_, ?_⟩
  · intro p hp
    unfold DispersionSolver.solve_wave_parameters at hp
    split at hp
    · exact Except.noConfusion hp
    · split at hp
      · exact Except.noConfusion hp
      · dsimp only at hp
        split at hp
        · exact Except.noConfusion hp
        · rename_i u heq
          injection hp with h
          rw [← h, heq]
  · intro hbad
    unfold DispersionSolver.solve_wave_parameters at hbad
    split at hbad
    · rename_i e heq
      injection hbad with h
      exact new_error_not_residual H T d e heq h
    · split at hbad
      · rename_i e heq
        injection hbad with h
        unfold DispersionSolver.solve_wave_number at heq
        exact solve_aux_error_not_residual S _ d S.max_iterations _ e heq h
      · dsimp only at hbad
        split at hbad
        · rename_i e heq
          injection hbad with h
          exact validate_error_not_residual _ e heq h
        · exact Except.noConfusion hbad
  · intro k omega dep
    unfold DispersionSolver.validate_dispersion
    by_cases hr : (1e-6 : ℝ) < |S.dispersion_function k omega dep|
    · rw [if_pos hr]
      exact ⟨⟨fun _ => hr, fun _ => rfl⟩, fun hn => absurd hr hn⟩
    · rw [if_neg hr]
      exact ⟨⟨fun hc => Except.noConfusion hc, fun hc => absurd hc hr⟩, fun _ => rfl⟩

/-- C1 witness: the concrete run below succeeds, and the parameters it
returns pass validate. -/
theorem solve_wave_parameters_validate_witness :
    S₀.solve_wave_parameters (1 / 2) T₀ 1 = .ok P₁ ∧ P₁.validate = .ok () :=
  ⟨solve_concrete,
    (solve_wave_parameters_validate S₀ (1 / 2) T₀ 1).1 P₁ solve_concrete⟩

/-- C1 counterexample: a concrete run of solve_wave_parameters (solver
with_params(100, 1/100, 1), inputs H = 1/2, T = 2 pi / sqrt(21/10),
d = 1) that succeeds although the dispersion residual of the returned
parameters is at least 1e-6 — no residual-too-large failure occurs. -/
theorem solve_residual_counterexample :
    S₀.solve_wave_parameters (1 / 2) T₀ 1 = .ok P₁ ∧
    (1e-6 : ℝ) ≤ |S₀.dispersion_function P₁.k P₁.omega P₁.d| :=
  ⟨solve_concrete, residual_at_k₁⟩

/-- For a nonnegative dividend and positive divisor the Rust float
remainder agrees with the floor-based mathematical modulus. -/
lemma floatRem_nonneg_eq (a b : ℝ) (ha : 0 ≤ a) (hb : 0 < b) :
    floatRem a b = a - b * ⌊a / b⌋ := by
  unfold floatRem floatTrunc
  rw [if_pos (div_nonneg ha hb.le)]

/-- C9 (amended): the crest and trough tests compare the truncated (Rust)
remainder of the phase by 2 pi — which takes the sign of the phase — with
the tolerance, on both sides of the period boundary; for nonnegative
phases this coincides with the same two-sided test on the mathematical
floor-based modulus, but not for negative phases. -/
theorem wave_crest_trough_spec (s : BoundaryStatus) (tol : ℝ) :
    (s.at_wave_crest tol ↔
      |floatRem s.current_phase (2 * π)| < tol ∨
      |floatRem s.current_phase (2 * π) - 2 * π| < tol) ∧
    (0 ≤ s.current_phase →
      (s.at_wave_crest tol ↔
        |s.current_phase - 2 * π * ⌊s.current_phase / (2 * π)⌋| < tol ∨
        |s.current_phase - 2 * π * ⌊s.current_phase / (2 * π)⌋ - 2 * π| < tol)) ∧
    (s.at_wave_trough tol ↔
      |floatRem (s.current_phase + π) (2 * π)| < tol ∨
      |floatRem (s.current_phase + π) (2 * π) - 2 * π| < tol) ∧
    (0 ≤ s.current_phase + π →
      (s.at_wave_trough tol ↔
        |s.current_phase + π - 2 * π * ⌊(s.current_phase + π) / (2 * π)⌋| < tol ∨
        |s.current_phase + π - 2 * π * ⌊(s.current_phase + π) / (2 * π)⌋ - 2 * π| <
          tol)) := by
  refine ⟨Iff.rfl, ?_, Iff.rfl, ?_⟩
  · intro hpos
    unfold BoundaryStatus.at_wave_crest
    dsimp only
    rw [floatRem_nonneg_eq s.current_phase (2 * π) hpos Real.two_pi_pos]
  · intro hpos
    unfold BoundaryStatus.at_wave_trough
    dsimp only
    rw [floatRem_nonneg_eq (s.current_phase + π) (2 * π) hpos Real.two_pi_pos]

/-- A concrete diagnostic snapshot with phase zero. -/
noncomputable def Sdiag : BoundaryStatus := ⟨true, 0, 0, 0, 0, Pc⟩

/-- C9 witness: at phase 0 both nonnegativity hypotheses hold and the
floor-based characterizations follow. -/
theorem wave_crest_trough_spec_witness :
    0 ≤ Sdiag.current_phase ∧ 0 ≤ Sdiag.current_phase + π ∧
    (Sdiag.at_wave_crest 1 ↔
      |Sdiag.current_phase - 2 * π * ⌊Sdiag.current_phase / (2 * π)⌋| < 1 ∨
      |Sdiag.current_phase - 2 * π * ⌊Sdiag.current_phase / (2 * π)⌋ - 2 * π| < 1) ∧
    (Sdiag.at_wave_trough 1 ↔
      |Sdiag.current_phase + π - 2 * π * ⌊(Sdiag.current_phase + π) / (2 * π)⌋| < 1 ∨
      |Sdiag.current_phase + π - 2 * π * ⌊(Sdiag.current_phase + π) / (2 * π)⌋ -
        2 * π| < 1) := by
  have hph : Sdiag.current_phase = 0 := by
    show Pc.k * (0 : ℝ) - Pc.omega * 0 = 0
    ring
  refine ⟨le_of_eq hph.symm, ?_, ?_, ?_⟩
  · rw [hph]
    simp [Real.pi_pos.le]
  · exact (wave_crest_trough_spec Sdiag 1).2.1 (le_of_eq hph.symm)
  · exact (wave_crest_trough_spec Sdiag 1).2.2.2 (by rw [hph]; simp [Real.pi_pos.le])

/-- The diagnostic snapshot just before one full period has elapsed at
the generation position 0: k = omega = 1, t = 2 pi - 1/200, so the phase
is 1/200 - 2 pi. -/
noncomputable def Slate : BoundaryStatus := ⟨true, 2 * π - 1 / 200, 0, 0, 0, Pc⟩

/-- C9 counterexample: just before a full period the floor-based modulus
of the phase is 1/200, within the tolerance 1/100, yet at_wave_crest is
false: the Rust remainder keeps the sign of the negative phase, so crest
detection does not work there. -/
theorem wave_crest_counterexample :
    |Slate.current_phase - 2 * π * ⌊Slate.current_phase / (2 * π)⌋| < 1 / 100 ∧
    ¬ Slate.at_wave_crest (1 / 100) := by
  have hπ := Real.pi_gt_three
  have h2π := Real.two_pi_pos
  have hph : Slate.current_phase = 1 / 200 - 2 * π := by
    show Pc.k * (0 : ℝ) - Pc.omega * (2 * π - 1 / 200) = 1 / 200 - 2 * π
    show (1 : ℝ) * 0 - 1 * (2 * π - 1 / 200) = 1 / 200 - 2 * π
    ring
  have hfloor : ⌊Slate.current_phase / (2 * π)⌋ = -1 := by
    rw [hph]
    rw [Int.floor_eq_iff]
    constructor
    · push_cast
      rw [le_div_iff h2π]
      nlinarith
    · push_cast
      rw [div_lt_iff h2π]
      nlinarith
  constructor
  · rw [hfloor, hph]
    push_cast
    rw [show (1 : ℝ) / 200 - 2 * π - 2 * π * (-1) = 1 / 200 from by ring]
    rw [abs_of_nonneg (by norm_num)]
    norm_num
  · have hxneg : Slate.current_phase / (2 * π) < 0 := by
      rw [hph]
      apply div_neg_of_neg_of_pos _ h2π
      nlinarith
    have hceil : ⌈Slate.current_phase / (2 * π)⌉ = 0 := by
      rw [Int.ceil_eq_iff]
      constructor
      · push_cast
        rw [hph, lt_div_iff h2π]
        nlinarith
      · push_cast
        exact le_of_lt hxneg
    have htrunc : floatTrunc (Slate.current_phase / (2 * π)) = 0 := by
      unfold floatTrunc
      rw [if_neg (not_le.mpr hxneg), hceil]
      simp
    have hrem : floatRem Slate.current_phase (2 * π) = Slate.current_phase := by
      unfold floatRem
      rw [htrunc]
      ring
    unfold BoundaryStatus.at_wave_crest
    dsimp only
    rw [hrem, hph]
    push_neg
    constructor
    · rw [abs_of_nonpos (by nlinarith)]
      nlinarith
    · rw [abs_of_nonpos (by nlinarith)]
      nlinarith
